import Mathlib

/-!
# Verification of the flux-sdk sandbox server

A shallow embedding of the sandbox host emulation engine
(`startServer` and its helpers): the mention parser, the in-memory
message log, the persistent key/value store, the viewer registry and
the HTTP request handlers.  JavaScript `Map`s are modelled as
insertion-ordered association lists, `Date.now()` as an explicit
`now : Nat` parameter, and asynchronous exceptions as `Except`.
-/

set_option autoImplicit false

namespace FluxSandbox

/-- JSON values, the value universe of `JSON.parse` / `JSON.stringify`. -/
inductive Json where
  | null : Json
  | bool (b : Bool) : Json
  | num (n : Int) : Json
  | str (s : String) : Json
  | arr (elems : List Json) : Json
  | obj (fields : List (String × Json)) : Json

/-! ## MentionParser

Embedding of the loop
`while ((m = MENTION_PATTERN.exec(content)) !== null) { if (!mentionIds.includes(m[1])) mentionIds.push(m[1]); }`
with `MENTION_PATTERN = /<@([a-zA-Z0-9_-]+)>/g`.  The JS regex engine
finds successive non-overlapping leftmost matches; because the character
class excludes `<`, `@` and `>`, greedy matching with no backtracking is
exact: after `<@` take the maximal run of word characters, require at
least one, then require `>`. -/

/-- The character class `[a-zA-Z0-9_-]` of `MENTION_PATTERN`. -/
def isWordChar (c : Char) : Bool :=
  ('a'.toNat ≤ c.toNat && c.toNat ≤ 'z'.toNat) ||
  ('A'.toNat ≤ c.toNat && c.toNat ≤ 'Z'.toNat) ||
  ('0'.toNat ≤ c.toNat && c.toNat ≤ '9'.toNat) ||
  c = '_' || c = '-'

/-- Embeds `if (!mentionIds.includes(id)) mentionIds.push(id)`. -/
def pushUnique (acc : List String) (x : String) : List String :=
  if x ∈ acc then acc else acc ++ [x]

/-- The `MENTION_PATTERN.exec` loop, accumulating deduplicated capture
groups exactly as the source loop does.

The JS engine, after a successful match, resumes at `lastIndex` (just
past the `>`), and after a failed attempt at position `i` it resumes
searching at `i + 1`.  Because a match always starts with `<`, and `<`
occurs nowhere else inside a match attempt (`@`, the word characters
and `>` are all distinct from `<`), no match can begin strictly inside
an attempted `<@…` segment; resuming the character scan right after
the two-character prefix `<@` is therefore equivalent in both the
success and the failure case, which is how this embedding recurses. -/
def mentionScan : List Char → List String → List String
  | [], acc => acc
  | '<' :: '@' :: rest, acc =>
    match rest.takeWhile isWordChar, rest.dropWhile isWordChar with
    | c :: w, '>' :: _ => mentionScan rest (pushUnique acc (String.mk (c :: w)))
    | _, _ => mentionScan rest acc
  | _ :: rest, acc => mentionScan rest acc

/-- All successive matches of `MENTION_PATTERN` in order, without the
dedup step (the raw stream of capture groups the loop consumes). -/
def mentionScanRaw : List Char → List String
  | [] => []
  | '<' :: '@' :: rest =>
    match rest.takeWhile isWordChar, rest.dropWhile isWordChar with
    | c :: w, '>' :: _ => String.mk (c :: w) :: mentionScanRaw rest
    | _, _ => mentionScanRaw rest
  | _ :: rest => mentionScanRaw rest

/-- Mention extraction as performed in both the `/api/messages` handler
and `ctx.api.sendMessage`. -/
def extractMentions (s : String) : List String :=
  mentionScan s.data []

/-- Spec-level first-seen deduplication: keep each element's first
occurrence, drop later repeats. -/
def firstSeenDedup : List String → List String
  | [] => []
  | x :: xs => x :: firstSeenDedup (xs.filter (fun y => y ≠ x))
termination_by l => l.length
decreasing_by
  have h := List.length_filter_le (fun y => decide (y ≠ x)) xs
  simp at h ⊢
  omega

theorem firstSeenDedup_nil : firstSeenDedup [] = [] := by
  simp [firstSeenDedup]

theorem firstSeenDedup_cons (x : String) (xs : List String) :
    firstSeenDedup (x :: xs) = x :: firstSeenDedup (xs.filter (fun y => y ≠ x)) := by
  simp [firstSeenDedup]

theorem filter_ne_filter_not_mem (R acc : List String) (x : String) :
    (R.filter (fun y => y ∉ acc)).filter (fun y => y ≠ x) =
      R.filter (fun y => y ∉ acc ++ [x]) := by
  rw [List.filter_filter]
  apply List.filter_congr
  intro a _
  by_cases h1 : a ∈ acc <;> by_cases h2 : a = x <;> simp [h1, h2, List.mem_append]

theorem mentionScan_eq_dedup_raw (cs : List Char) (acc : List String) :
    mentionScan cs acc =
      acc ++ firstSeenDedup ((mentionScanRaw cs).filter (fun y => y ∉ acc)) := by
  induction cs, acc using mentionScan.induct with
  | case1 acc => simp [mentionScan, mentionScanRaw, firstSeenDedup]
  | case2 rest acc c w tl hdrop htake ih =>
    rw [mentionScan]
    rw [mentionScanRaw]
    rw [htake, hdrop]
    simp only []
    rw [ih]
    by_cases hid : String.mk (c :: w) ∈ acc
    · simp [pushUnique, hid, List.filter_cons]
    · have hpu : pushUnique acc (String.mk (c :: w)) = acc ++ [String.mk (c :: w)] := by
        simp [pushUnique, hid]
      have hf : (String.mk (c :: w) :: mentionScanRaw rest).filter (fun y => y ∉ acc)
          = String.mk (c :: w) :: (mentionScanRaw rest).filter (fun y => y ∉ acc) := by
        simp [List.filter_cons, hid]
      rw [hpu, hf, firstSeenDedup_cons, filter_ne_filter_not_mem]
      simp
  | case3 rest acc hna ih =>
    rw [mentionScan, mentionScanRaw]
    split
    · next c w tl htake hdrop => exact (hna c w tl htake hdrop).elim
    · exact ih
  | case4 c rest acc hne ih =>
    rw [mentionScan.eq_def, mentionScanRaw.eq_def]
    split
    · rename_i heq
      exact absurd heq (List.cons_ne_nil c rest)
    · rename_i r2 heq
      injection heq with h1 h2
      exact (hne r2 h1 h2).elim
    · rename_i hd1 tl1 hfail1 heq1
      injection heq1 with h1 h2
      subst h2
      split
      · rename_i heq
        exact absurd heq (List.cons_ne_nil c rest)
      · rename_i r2 heq
        injection heq with g1 g2
        exact (hne r2 g1 g2).elim
      · rename_i hd2 tl2 hfail2 heq2
        injection heq2 with g1 g2
        subst g2
        exact ih

theorem extractMentions_eq (s : String) :
    extractMentions s = firstSeenDedup (mentionScanRaw s.data) := by
  rw [extractMentions, mentionScan_eq_dedup_raw]
  simp

theorem mem_firstSeenDedup {x : String} {l : List String} :
    x ∈ firstSeenDedup l → x ∈ l := by
  induction l using firstSeenDedup.induct with
  | case1 => simp [firstSeenDedup]
  | case2 a l ih =>
    rw [firstSeenDedup_cons]
    intro h
    rcases List.mem_cons.mp h with h | h
    · exact h ▸ List.mem_cons_self a l
    · exact List.mem_cons_of_mem a (List.mem_of_mem_filter (ih h))

theorem nodup_firstSeenDedup (l : List String) : (firstSeenDedup l).Nodup := by
  induction l using firstSeenDedup.induct with
  | case1 => simp [firstSeenDedup]
  | case2 a l ih =>
    rw [firstSeenDedup_cons]
    refine List.nodup_cons.mpr ⟨fun hmem => ?_, ih⟩
    have := List.of_mem_filter (mem_firstSeenDedup hmem)
    simp at this

theorem mentionScanRaw_matches_pattern (cs : List Char) :
    ∀ x ∈ mentionScanRaw cs, x.data ≠ [] ∧ ∀ ch ∈ x.data, isWordChar ch := by
  induction cs using mentionScanRaw.induct with
  | case1 => simp [mentionScanRaw]
  | case2 rest c w tl hdrop htake ih =>
    rw [mentionScanRaw, htake, hdrop]
    simp only []
    intro x hx
    rcases List.mem_cons.mp hx with h | h
    · subst h
      refine ⟨by simp, fun ch hch => ?_⟩
      have : ch ∈ rest.takeWhile isWordChar := by rw [htake]; exact hch
      exact List.mem_takeWhile_imp this
    · exact ih x h
  | case3 rest hna ih =>
    rw [mentionScanRaw]
    split
    · next c w tl htake hdrop => exact (hna c w tl htake hdrop).elim
    · exact ih
  | case4 c rest hne ih =>
    rw [mentionScanRaw.eq_def]
    split
    · rename_i heq
      exact absurd heq (List.cons_ne_nil c rest)
    · rename_i r2 heq
      injection heq with h1 h2
      exact (hne r2 h1 h2).elim
    · rename_i hd tl hfail heq
      injection heq with h1 h2
      subst h2
      exact ih

/-! ## Data model

`startServer`'s mutable state: the storage `Map` and its backing file,
the SSE `clients` set, the in-memory `messages` history, the mock user
roster and the single registered plugin message handler.  JS `Map`s are
insertion-ordered association lists; `Date.now()` is an explicit `now`
parameter; the backing file's parsed contents are `Option` (`none` =
absent or unparseable). -/

/-- A roster entry (`{id, name, avatarUrl}`); `avatarUrl` is `none` for
the `{ id, name: 'You' }` fallback sender, which has no such field. -/
structure User where
  id : String
  name : String
  avatarUrl : Option String

/-- An entry of the in-memory `messages` history.  `workspaceId` and
`createdAt` are optional because the two producers build different
shapes: the `/api/messages` handler's event has a `workspaceId` and no
`createdAt`, `ctx.api.sendMessage`'s message has `createdAt` and no
`workspaceId`. -/
structure StoredMessage where
  id : String
  channelId : String
  workspaceId : Option String
  content : String
  userId : String
  mentionIds : List String
  createdAt : Option Nat
  user : User

/-- A registered SSE client (`{ res }` in the `clients` set).  `closed`
records whether the underlying connection has been destroyed: a
`res.write` to such a stream fails (Node surfaces the failure on the
stream's error event, not as a synchronous exception). -/
structure Client where
  cid : Nat
  closed : Bool
  received : List StoredMessage

/-- The event object dispatched to the plugin's registered handler. -/
structure MessageEvent where
  id : String
  channelId : String
  workspaceId : String
  content : String
  userId : String
  mentionIds : List String

/-- The plugin's `onMessage` handler: may reject with an error message
(`e.message`). -/
def MsgHandler : Type := MessageEvent → Except String Unit

/-- The mutable state captured by the `startServer` closure. -/
structure ServerState where
  storage : List (String × Json)
  storageFile : Option (List (String × Json))
  clients : List Client
  messages : List StoredMessage
  users : List User
  messageHandler : Option MsgHandler

/-! ## PersistentStore -/

/-- Embeds `storage.set(k, v)` on a JS `Map`: replace in place if the key is
present (keeping its position), else append. -/
def mapSet : List (String × Json) → String → Json → List (String × Json)
  | [], k, v => [(k, v)]
  | (k', v') :: rest, k, v =>
    if k' = k then (k, v) :: rest else (k', v') :: mapSet rest k v

/-- Embeds `storage.delete(k)` on a JS `Map`. -/
def mapDelete (m : List (String × Json)) (k : String) : List (String × Json) :=
  m.filter (fun p => p.1 ≠ k)

/-- Embeds `storage.get(k)` on a JS `Map`. -/
def mapGet (m : List (String × Json)) (k : String) : Option Json :=
  (m.find? (fun p => p.1 = k)).map (fun p => p.2)

/-- Embeds `persistStorage`: serializes the whole in-memory table to the
backing file (`fs.writeFileSync(storageFile, JSON.stringify(data))`),
synchronously, before returning. -/
def persistStorage (s : ServerState) : ServerState :=
  { s with storageFile := some s.storage }

/-- The storage load at startup: if the backing file exists and parses,
`storage.set` each entry of the parsed object; otherwise (absent file,
or a parse failure which is caught and logged) the store stays empty. -/
def loadStorage : Option (List (String × Json)) → List (String × Json)
  | none => []
  | some entries => entries.foldl (fun m kv => mapSet m kv.1 kv.2) []

/-- Embeds `ctx.api.storage.set` / `POST /api/storage`: mutate, then persist. -/
def storageSet (s : ServerState) (k : String) (v : Json) : ServerState :=
  persistStorage { s with storage := mapSet s.storage k v }

/-- Embeds `ctx.api.storage.delete`: mutate, then persist. -/
def storageDelete (s : ServerState) (k : String) : ServerState :=
  persistStorage { s with storage := mapDelete s.storage k }

/-- Embeds `POST /api/storage/all`: `storage.clear()`, re-`set` every entry of
the request body, then persist. -/
def storageReplaceAll (s : ServerState) (entries : List (String × Json)) : ServerState :=
  persistStorage { s with storage := entries.foldl (fun m kv => mapSet m kv.1 kv.2) [] }

/-- The three storage mutations reachable through the context API and
the router. -/
inductive StorageOp where
  | set (k : String) (v : Json) : StorageOp
  | del (k : String) : StorageOp
  | replaceAll (entries : List (String × Json)) : StorageOp

def applyStorageOp (s : ServerState) : StorageOp → ServerState
  | .set k v => storageSet s k v
  | .del k => storageDelete s k
  | .replaceAll entries => storageReplaceAll s entries

def runStorageOps (s : ServerState) (ops : List StorageOp) : ServerState :=
  ops.foldl applyStorageOp s

/-! ## ViewerRegistry -/

/-- Embeds `client.res.write(...)`: appends to an open client's stream; on a
destroyed connection the write fails without raising a synchronous
exception (Node reports it asynchronously on the stream), so the
client record is simply left unchanged. -/
def writeToClient (c : Client) (m : StoredMessage) : Client :=
  if c.closed then c else { c with received := c.received ++ [m] }

/-- The broadcast loop `for (const client of clients) client.res.write(...)`:
writes to every registered client in order; the registry itself is not
touched. -/
def broadcast (clients : List Client) (m : StoredMessage) : List Client :=
  clients.map (fun c => writeToClient c m)

/-- Embeds `/api/events` subscription: `clients.add(client)`. -/
def subscribeClient (s : ServerState) (c : Client) : ServerState :=
  { s with clients := s.clients ++ [c] }

/-- Embeds `req.on('close', () => clients.delete(client))`: the only place a
client is ever removed from the registry. -/
def onCloseClient (s : ServerState) (cid : Nat) : ServerState :=
  { s with clients := s.clients.filter (fun c => c.cid ≠ cid) }

/-! ## MessageLog -/

/-- Embeds `messages.slice(-limit)` for a non-negative JS `limit`:
`slice(-0)` equals `slice(0)`, the whole array; for positive `limit`
it is the suffix of the last `min limit length` elements. -/
def jsSliceNeg {α : Type} (l : List α) (limit : Nat) : List α :=
  if limit = 0 then l else l.drop (l.length - limit)

/-- The declared default of `getMessages(channelId, limit = 50)`. -/
def defaultGetLimit : Nat := 50

/-- Embeds `ctx.api.getMessages(channelId, limit)`: `messages.slice(-limit)`;
`channelId` is ignored. -/
def getMessages (channelId : String) (msgs : List StoredMessage) (limit : Nat) :
    List StoredMessage :=
  jsSliceNeg msgs limit

/-- Embeds `ctx.api.getMessages(channelId)` with the limit argument omitted. -/
def getMessagesDefault (channelId : String) (msgs : List StoredMessage) :
    List StoredMessage :=
  getMessages channelId msgs defaultGetLimit

/-! ## PluginHost: `ctx.api.sendMessage` -/

/-- The primitive effects of `sendMessage`, in program order: the
`messages.push` and the per-client `res.write`s. -/
inductive Action where
  | append (m : StoredMessage) : Action
  | write (cid : Nat) (m : StoredMessage) : Action

/-- JS `a || b` on an optional string field: `undefined` and `""` are
falsy. -/
def jsOrElse (a : Option String) (b : String) : String :=
  match a with
  | none => b
  | some s => if s = "" then b else s

/-- The message object built by `ctx.api.sendMessage`: attributed to
`'ext-bot'`, user name `manifest.name || 'Extension'`, mentions parsed
from `content`. -/
def mkBotMessage (manifestName : Option String) (now : Nat)
    (channelId content : String) : StoredMessage :=
  { id := "msg-" ++ toString now
    channelId := channelId
    workspaceId := none
    content := content
    userId := "ext-bot"
    mentionIds := extractMentions content
    createdAt := some now
    user := { id := "ext-bot", name := jsOrElse manifestName "Extension", avatarUrl := none } }

/-- Embeds `ctx.api.sendMessage(channelId, content)`: build the bot message,
`messages.push(msg)`, then write it to every registered client.  The
second component is the trace of primitive effects in program order. -/
def sendMessage (s : ServerState) (manifestName : Option String) (now : Nat)
    (channelId content : String) : ServerState × List Action :=
  let msg := mkBotMessage manifestName now channelId content
  let s1 := { s with messages := s.messages ++ [msg] }
  let s2 := { s1 with clients := broadcast s1.clients msg }
  (s2, Action.append msg :: s.clients.map (fun c => Action.write c.cid msg))

/-! ## RequestRouter: POST handlers

Each handler is a function from the parsed request body to a new state
and a response.  A body that is not valid JSON is `none`; a handler
whose source calls `JSON.parse(body)` outside any `try` block then
raises an uncaught exception, modelled as `Except.error` (no response
is ever written for that request).  The guarded handlers
(`/api/storage/all`, `/api/users`) instead answer `400`. -/

structure HttpResponse where
  status : Nat
  body : Json

/-- The parsed fields of a `/api/messages` request body; `mentionIds`
is `data.mentionIds || []`. -/
structure MsgData where
  userId : String
  content : String
  mentionIds : List String

/-- Embeds `users.find(u => u.id === data.userId)`. -/
def findUser (users : List User) (uid : String) : Option User :=
  users.find? (fun u => u.id = uid)

/-- The `{"success":true}` response. -/
def successResponse : HttpResponse :=
  { status := 200, body := Json.obj [("success", Json.bool true)] }

/-- The response sent when no plugin handler is registered. -/
def noHandlerResponse : HttpResponse :=
  { status := 200
    body := Json.obj [("success", Json.bool true),
                      ("note", Json.str "No message handler registered")] }

/-- The `500 {"error": e.message}` response for a failed handler. -/
def handlerErrorResponse (e : String) : HttpResponse :=
  { status := 500, body := Json.obj [("error", Json.str e)] }

/-- The `400 {"error":"Invalid JSON body"}` response of the guarded
handlers. -/
def invalidJsonResponse : HttpResponse :=
  { status := 400, body := Json.obj [("error", Json.str "Invalid JSON body")] }

/-- The stored record `{ ...event, user: sender }`. -/
def storedOfEvent (event : MessageEvent) (sender : User) : StoredMessage :=
  { id := event.id, channelId := event.channelId,
    workspaceId := some event.workspaceId, content := event.content,
    userId := event.userId, mentionIds := event.mentionIds,
    createdAt := none, user := sender }

/-- The message of an uncaught `JSON.parse` `SyntaxError`. -/
def jsonParseError : String := "SyntaxError: Unexpected token in JSON"

/-- The mention-resolved event the `/api/messages` handler constructs:
`mentionIds` is `[...new Set([...(data.mentionIds || []), ...parsed])]`
(insertion-order `Set` = first-seen dedup of the concatenation). -/
def userEventOf (now : Nat) (data : MsgData) : MessageEvent :=
  { id := "msg-" ++ toString now
    channelId := "sandbox-channel"
    workspaceId := "sandbox-workspace"
    content := data.content
    userId := data.userId
    mentionIds := firstSeenDedup (data.mentionIds ++ extractMentions data.content) }

/-- Embeds the sender resolution `users.find(u => u.id === data.userId) || fallback`,
where the fallback literal has id `data.userId` and name `'You'`. -/
def senderOf (users : List User) (data : MsgData) : User :=
  (findUser users data.userId).getD { id := data.userId, name := "You", avatarUrl := none }

/-- The `try { await messageHandler(event); ...200... } catch (e)
{ ...500 {error: e.message}... }` block, as a function of the handler's
outcome. -/
def responseOf : Except String Unit → HttpResponse
  | Except.ok _ => successResponse
  | Except.error e => handlerErrorResponse e

/-- The `POST /api/messages` handler.  `JSON.parse` is unguarded; with
a handler registered it resolves the sender, builds the
mention-resolved event, pushes `{ ...event, user: sender }` onto the
history, then awaits the handler inside `try`; with no handler it only
acknowledges, touching nothing. -/
def messagesPost (s : ServerState) (now : Nat) (body : Option MsgData) :
    Except String (ServerState × HttpResponse) :=
  match body with
  | none => Except.error jsonParseError
  | some data =>
    match s.messageHandler with
    | some handler =>
      let s' := { s with
        messages := s.messages ++ [storedOfEvent (userEventOf now data) (senderOf s.users data)] }
      Except.ok (s', responseOf (handler (userEventOf now data)))
    | none => Except.ok (s, noHandlerResponse)

/-- The `GET /api/storage` handler: `url.searchParams.get('key')` is
`none` when the parameter is absent (and a `Map` keyed by strings never
holds `null`), `storage.get(key) ?? null`. -/
def storageGetHandler (s : ServerState) (key : Option String) :
    ServerState × HttpResponse :=
  let v := match key with
    | none => Json.null
    | some k => (mapGet s.storage k).getD Json.null
  (s, { status := 200, body := Json.obj [("value", v)] })

/-- The `POST /api/storage` handler: unguarded `JSON.parse`, then
`storage.set(key, value)` and `persistStorage()`. -/
def storagePost (s : ServerState) (body : Option (String × Json)) :
    Except String (ServerState × HttpResponse) :=
  match body with
  | none => Except.error jsonParseError
  | some kv => Except.ok (storageSet s kv.1 kv.2, successResponse)

/-- The `POST /api/storage/all` handler: `JSON.parse` inside `try`;
on failure answer `400`, on success clear, re-set every entry, and
persist. -/
def storageAllPost (s : ServerState) (body : Option (List (String × Json))) :
    Except String (ServerState × HttpResponse) :=
  match body with
  | none => Except.ok (s, invalidJsonResponse)
  | some entries => Except.ok (storageReplaceAll s entries, successResponse)

/-- The parsed fields of a `/api/users` request body; every field may
be absent, and `newUser.id` is also treated as absent when falsy
(`""`). -/
structure NewUserData where
  id : Option String
  name : Option String
  avatarUrl : Option String

/-- JS truthiness of `newUser.id`. -/
def jsTruthyId : Option String → Bool
  | none => false
  | some s => s ≠ ""

/-- Embeds the spread merge of `users[idx]` with `newUser`: fields present in the body
override the roster entry. -/
def mergeUser (old : User) (nu : NewUserData) : User :=
  { id := nu.id.getD old.id
    name := nu.name.getD old.name
    avatarUrl := (nu.avatarUrl).orElse (fun _ => old.avatarUrl) }

/-- Embeds the roster update at
`idx = users.findIndex(u => u.id === newUser.id)`: update the first
matching entry only. -/
def updateFirstUser (users : List User) (uid : String) (nu : NewUserData) : List User :=
  match users with
  | [] => []
  | u :: rest =>
    if u.id = uid then mergeUser u nu :: rest else u :: updateFirstUser rest uid nu

/-- The `POST /api/users` handler: `JSON.parse` inside `try` (`400` on
failure); a truthy `id` updates the matching roster entry or pushes the
body as-is, otherwise a fresh `user-{Date.now()}` entry is created with
a default avatar (a body with no `name` field stores an absent field,
modelled as `""`). -/
def usersPost (s : ServerState) (now : Nat) (body : Option NewUserData) :
    Except String (ServerState × HttpResponse) :=
  match body with
  | none => Except.ok (s, invalidJsonResponse)
  | some nu =>
    if jsTruthyId nu.id then
      let uid := nu.id.getD ""
      let users' :=
        if (s.users.find? (fun u => u.id = uid)).isSome then
          updateFirstUser s.users uid nu
        else
          s.users ++ [{ id := uid, name := nu.name.getD "", avatarUrl := nu.avatarUrl }]
      Except.ok ({ s with users := users' }, successResponse)
    else
      let uid := "user-" ++ toString now
      let newUser : User :=
        { id := uid, name := nu.name.getD ""
          avatarUrl := some ((nu.avatarUrl).getD ("https://i.pravatar.cc/150?u=" ++ uid)) }
      Except.ok ({ s with users := s.users ++ [newUser] }, successResponse)

/-! ## Initial state -/

/-- The mock user roster built at startup. -/
def mockUsers : List User :=
  (List.range 10).map (fun i =>
    { id := "user-" ++ toString (i + 1)
      name := "Mock User " ++ toString (i + 1)
      avatarUrl := some ("https://i.pravatar.cc/150?u=user-" ++ toString (i + 1)) })

/-- The state right after `startServer`'s initialization: storage
loaded from the backing file, empty client set and history, the mock
roster, and whichever handler (if any) the plugin's `onLoad` has
registered through `ctx.api.onMessage`. -/
def startState (file : Option (List (String × Json))) (handler : Option MsgHandler) :
    ServerState :=
  { storage := loadStorage file
    storageFile := file
    clients := []
    messages := []
    users := mockUsers
    messageHandler := handler }

/-! ## PersistentStore lemmas -/

def storageKeys (m : List (String × Json)) : List String := m.map Prod.fst

theorem storageKeys_nil : storageKeys [] = [] := rfl

theorem storageKeys_cons (p : String × Json) (rest : List (String × Json)) :
    storageKeys (p :: rest) = p.1 :: storageKeys rest := rfl

theorem storageKeys_mapSet (m : List (String × Json)) (k : String) (v : Json) :
    storageKeys (mapSet m k v) =
      if k ∈ storageKeys m then storageKeys m else storageKeys m ++ [k] := by
  induction m with
  | nil => simp [mapSet, storageKeys]
  | cons p rest ih =>
    obtain ⟨k', v'⟩ := p
    by_cases h : k' = k
    · simp [mapSet, h, storageKeys_cons, List.mem_cons]
    · rw [mapSet]
      rw [if_neg h]
      rw [storageKeys_cons, storageKeys_cons, ih]
      have hkk : ¬(k = k') := fun hh => h hh.symm
      by_cases hmem : k ∈ storageKeys rest
      · rw [if_pos hmem, if_pos]
        simp [List.mem_cons, hmem]
      · rw [if_neg hmem, if_neg]
        · simp
        · simp [List.mem_cons, hkk, hmem]

theorem nodup_storageKeys_mapSet {m : List (String × Json)} (k : String) (v : Json)
    (h : (storageKeys m).Nodup) : (storageKeys (mapSet m k v)).Nodup := by
  rw [storageKeys_mapSet]
  split
  · exact h
  · next hnm => simp [List.nodup_append, h, hnm]

theorem nodup_storageKeys_mapDelete {m : List (String × Json)} (k : String)
    (h : (storageKeys m).Nodup) : (storageKeys (mapDelete m k)).Nodup := by
  have hsub : List.Sublist (storageKeys (mapDelete m k)) (storageKeys m) :=
    (List.filter_sublist m).map Prod.fst
  exact h.sublist hsub

theorem nodup_storageKeys_fold (entries : List (String × Json))
    (acc : List (String × Json)) (h : (storageKeys acc).Nodup) :
    (storageKeys (entries.foldl (fun m kv => mapSet m kv.1 kv.2) acc)).Nodup := by
  induction entries generalizing acc with
  | nil => exact h
  | cons kv rest ih =>
    exact ih (mapSet acc kv.1 kv.2) (nodup_storageKeys_mapSet kv.1 kv.2 h)

theorem mapSet_of_not_mem (acc : List (String × Json)) (k : String) (v : Json)
    (h : k ∉ storageKeys acc) : mapSet acc k v = acc ++ [(k, v)] := by
  induction acc with
  | nil => simp [mapSet]
  | cons p rest ih =>
    rw [storageKeys_cons, List.mem_cons, not_or] at h
    obtain ⟨h1, h2⟩ := h
    obtain ⟨k', v'⟩ := p
    rw [mapSet, if_neg (fun hh => h1 hh.symm), ih h2]
    simp

theorem load_fold_of_nodup (m : List (String × Json)) :
    ∀ acc : List (String × Json), (storageKeys m).Nodup →
    (∀ k, k ∈ storageKeys m → k ∉ storageKeys acc) →
    m.foldl (fun a kv => mapSet a kv.1 kv.2) acc = acc ++ m := by
  induction m with
  | nil => intro acc _ _; simp
  | cons kv rest ih =>
    intro acc hnd hdisj
    rw [storageKeys_cons, List.nodup_cons] at hnd
    obtain ⟨hknr, hnd'⟩ := hnd
    have hk : kv.1 ∉ storageKeys acc :=
      hdisj kv.1 (by rw [storageKeys_cons]; exact List.mem_cons_self _ _)
    rw [List.foldl_cons]
    rw [mapSet_of_not_mem acc kv.1 kv.2 hk]
    rw [ih (acc ++ [(kv.1, kv.2)]) hnd' ?_]
    · simp
    · intro k hkm
      have hne : k ≠ kv.1 := fun hh => hknr (hh ▸ hkm)
      have hka : k ∉ storageKeys acc :=
        hdisj k (by rw [storageKeys_cons]; exact List.mem_cons_of_mem _ hkm)
      rw [show storageKeys (acc ++ [(kv.1, kv.2)]) = storageKeys acc ++ [kv.1] by
        simp [storageKeys]]
      rw [List.mem_append, List.mem_singleton]
      rintro (h | h)
      · exact hka h
      · exact hne h

theorem loadStorage_roundtrip (m : List (String × Json))
    (h : (storageKeys m).Nodup) : loadStorage (some m) = m := by
  rw [loadStorage]
  rw [load_fold_of_nodup m [] h (by simp [storageKeys])]
  simp

theorem nodup_storageKeys_loadStorage (file : Option (List (String × Json))) :
    (storageKeys (loadStorage file)).Nodup := by
  match file with
  | none => simp [loadStorage, storageKeys]
  | some entries =>
    exact nodup_storageKeys_fold entries [] (by simp [storageKeys])

theorem applyStorageOp_persists (s : ServerState) (op : StorageOp) :
    (applyStorageOp s op).storageFile = some (applyStorageOp s op).storage := by
  cases op <;> rfl

theorem nodup_applyStorageOp (s : ServerState) (op : StorageOp)
    (h : (storageKeys s.storage).Nodup) :
    (storageKeys (applyStorageOp s op).storage).Nodup := by
  cases op with
  | set k v => exact nodup_storageKeys_mapSet k v h
  | del k => exact nodup_storageKeys_mapDelete k h
  | replaceAll entries =>
    exact nodup_storageKeys_fold entries [] (by simp [storageKeys])

theorem nodup_runStorageOps (s : ServerState) (ops : List StorageOp)
    (h : (storageKeys s.storage).Nodup) :
    (storageKeys (runStorageOps s ops).storage).Nodup := by
  induction ops generalizing s with
  | nil => exact h
  | cons op rest ih => exact ih (applyStorageOp s op) (nodup_applyStorageOp s op h)

/-! ## Claim theorems -/

/-- C2: mention extraction returns the identifiers matching
`<@[a-zA-Z0-9_-]+>`, deduplicated keeping first occurrences in
first-seen order, and — being a pure function — is deterministic:
equal texts yield equal (identical) lists.  The first conjunct is the
refinement against the spec-level characterisation: the extracted list
is the first-seen dedup of the raw stream of pattern matches. -/
theorem mention_extraction_dedup_first_seen_deterministic (s : String) :
    extractMentions s = firstSeenDedup (mentionScanRaw s.data) ∧
    (extractMentions s).Nodup ∧
    (∀ x, x ∈ extractMentions s →
      x ∈ mentionScanRaw s.data ∧ x.data ≠ [] ∧ ∀ ch ∈ x.data, isWordChar ch) ∧
    (∀ t : String, t = s → extractMentions t = extractMentions s) := by
  refine ⟨extractMentions_eq s, ?_, ?_, ?_⟩
  · rw [extractMentions_eq]
    exact nodup_firstSeenDedup _
  · intro x hx
    rw [extractMentions_eq] at hx
    have hraw := mem_firstSeenDedup hx
    exact ⟨hraw, (mentionScanRaw_matches_pattern s.data x hraw).1,
      (mentionScanRaw_matches_pattern s.data x hraw).2⟩
  · intro t ht
    rw [ht]

/-- C2 witness: the theorem applied to the spec's example text
`"hello <@user-2> and <@user-2>"`. -/
theorem mention_extraction_witness :
    extractMentions "hello <@user-2> and <@user-2>" =
      firstSeenDedup (mentionScanRaw "hello <@user-2> and <@user-2>".data) ∧
    (extractMentions "hello <@user-2> and <@user-2>").Nodup ∧
    extractMentions "hello <@user-2> and <@user-2>" = ["user-2"] :=
  ⟨(mention_extraction_dedup_first_seen_deterministic "hello <@user-2> and <@user-2>").1,
   (mention_extraction_dedup_first_seen_deterministic "hello <@user-2> and <@user-2>").2.1,
   by rfl⟩

/-- C3 counterexample: a `POST /api/messages` request whose body is not
valid JSON does not get a client-error response — the unguarded
`JSON.parse(body)` raises inside the `end` callback and the request is
left unanswered (modelled as `Except.error`); same for
`POST /api/storage`. -/
theorem invalid_json_not_always_client_error :
    messagesPost (startState none none) 0 none = Except.error jsonParseError ∧
    storagePost (startState none none) none = Except.error jsonParseError :=
  ⟨rfl, rfl⟩

/-- C3 amended: of the four JSON-body POST endpoints, only
`/api/storage/all` and `/api/users` guard `JSON.parse` and answer the
caller with a 400 client error on invalid JSON; `/api/messages` and
`/api/storage` parse unguarded, so an invalid body raises an uncaught
exception and no response is produced. -/
theorem invalid_json_guarded_endpoints_400 (s : ServerState) (now : Nat) :
    messagesPost s now none = Except.error jsonParseError ∧
    storagePost s none = Except.error jsonParseError ∧
    storageAllPost s none = Except.ok (s, invalidJsonResponse) ∧
    usersPost s now none = Except.ok (s, invalidJsonResponse) ∧
    invalidJsonResponse.status = 400 :=
  ⟨rfl, rfl, rfl, rfl, rfl⟩

/-- C9: `ctx.api.getMessages` with `limit = 0` returns the entire
history: `messages.slice(-0)` is `messages.slice(0)`. -/
theorem getMessages_zero_returns_all (ch : String) (msgs : List StoredMessage) :
    getMessages ch msgs 0 = msgs := rfl

/-! ### Concrete sample data used by counterexamples and witnesses -/

/-- A simulated-user submission, the spec's mention-dedup scenario. -/
def sampleMsgData : MsgData :=
  { userId := "user-1", content := "hello <@user-2> and <@user-2>", mentionIds := [] }

/-- A plugin handler that succeeds. -/
def okHandler : MsgHandler := fun _ => Except.ok ()

/-- A plugin handler that rejects with message `"boom"`. -/
def failHandler : MsgHandler := fun _ => Except.error "boom"

def sampleBotMsg : StoredMessage := mkBotMessage (some "Ext") 0 "general" "hi"

def sampleBotMsg2 : StoredMessage := mkBotMessage (some "Ext") 1 "general" "yo"

def openClient : Client := { cid := 0, closed := false, received := [] }

def closedClient : Client := { cid := 1, closed := true, received := [] }

def viewerClient : Client := { cid := 7, closed := false, received := [] }

/-- C1 counterexample: with no plugin handler registered, a valid
`POST /api/messages` submission answers 200 with the no-handler note
but appends nothing — the `messages.push` sits inside the
`if (messageHandler)` branch, so the state is returned unchanged and
the log stays empty. -/
theorem message_without_handler_not_appended :
    messagesPost (startState none none) 0 (some sampleMsgData) =
      Except.ok (startState none none, noHandlerResponse) ∧
    (startState none none).messages = [] :=
  ⟨rfl, rfl⟩

/-- C1 amended: a valid `POST /api/messages` body is appended to the
log under the submitting user's identity (not the plugin's) only when
a plugin handler is registered; with no handler the response still
succeeds and notes that none is registered, but nothing is appended. -/
theorem messages_post_appends_only_with_handler (s : ServerState) (now : Nat) (data : MsgData) :
    (s.messageHandler = none →
      messagesPost s now (some data) = Except.ok (s, noHandlerResponse)) ∧
    (∀ h : MsgHandler, s.messageHandler = some h →
      messagesPost s now (some data) =
        Except.ok ({ s with messages :=
            s.messages ++ [storedOfEvent (userEventOf now data) (senderOf s.users data)] },
          responseOf (h (userEventOf now data))) ∧
      (storedOfEvent (userEventOf now data) (senderOf s.users data)).userId = data.userId ∧
      (storedOfEvent (userEventOf now data) (senderOf s.users data)).user =
        senderOf s.users data) := by
  constructor
  · intro hnone
    simp [messagesPost, hnone]
  · intro h hsome
    refine ⟨?_, rfl, rfl⟩
    simp [messagesPost, hsome]

/-- C1 witness: both branches of the amended claim at concrete
inputs. -/
theorem messages_post_append_witness :
    messagesPost (startState none none) 1 (some sampleMsgData) =
      Except.ok (startState none none, noHandlerResponse) ∧
    messagesPost (startState none (some okHandler)) 1 (some sampleMsgData) =
      Except.ok ({ startState none (some okHandler) with messages :=
          [storedOfEvent (userEventOf 1 sampleMsgData) (senderOf mockUsers sampleMsgData)] },
        responseOf (okHandler (userEventOf 1 sampleMsgData))) := by
  constructor
  · exact (messages_post_appends_only_with_handler (startState none none) 1 sampleMsgData).1 rfl
  · exact ((messages_post_appends_only_with_handler
      (startState none (some okHandler)) 1 sampleMsgData).2 okHandler rfl).1

/-- C5: a registered handler that rejects makes the submission answer
`500 {"error": e.message}`, while the record — already pushed before
the `await` — stays in the log (no rollback), and the handler branch
touches neither the client registry nor anything else (the exception
is caught, so the process survives and the request is answered). -/
theorem handler_failure_500_and_log_kept (s : ServerState) (now : Nat) (data : MsgData)
    (h : MsgHandler) (e : String) (hh : s.messageHandler = some h)
    (he : h (userEventOf now data) = Except.error e) :
    messagesPost s now (some data) =
      Except.ok ({ s with messages :=
          s.messages ++ [storedOfEvent (userEventOf now data) (senderOf s.users data)] },
        handlerErrorResponse e) ∧
    storedOfEvent (userEventOf now data) (senderOf s.users data) ∈
      (s.messages ++ [storedOfEvent (userEventOf now data) (senderOf s.users data)]) ∧
    ({ s with messages :=
        s.messages ++ [storedOfEvent (userEventOf now data) (senderOf s.users data)] }
      : ServerState).clients = s.clients ∧
    handlerErrorResponse e = { status := 500, body := Json.obj [("error", Json.str e)] } := by
  refine ⟨?_, List.mem_append_right _ (by simp), rfl, rfl⟩
  simp [messagesPost, hh, he, responseOf]

/-- C5 witness: the failing handler at a concrete state. -/
theorem handler_failure_witness :
    messagesPost (startState none (some failHandler)) 2 (some sampleMsgData) =
      Except.ok ({ startState none (some failHandler) with messages :=
          [storedOfEvent (userEventOf 2 sampleMsgData) (senderOf mockUsers sampleMsgData)] },
        handlerErrorResponse "boom") :=
  (handler_failure_500_and_log_kept (startState none (some failHandler)) 2 sampleMsgData
    failHandler "boom" rfl rfl).1

/-- C10: `GET /api/storage` with no `key` parameter, or with a key not
in the store, answers `200 {"value": null}` and leaves the state
untouched. -/
theorem storage_get_missing_key_null (s : ServerState) (k : String)
    (hk : mapGet s.storage k = none) :
    storageGetHandler s none = (s, { status := 200, body := Json.obj [("value", Json.null)] }) ∧
    storageGetHandler s (some k) =
      (s, { status := 200, body := Json.obj [("value", Json.null)] }) := by
  constructor
  · rfl
  · simp [storageGetHandler, hk]

/-- C10 witness: the fresh store and the never-set key `"missing"`. -/
theorem storage_get_missing_key_witness :
    storageGetHandler (startState none none) none =
      (startState none none, { status := 200, body := Json.obj [("value", Json.null)] }) ∧
    storageGetHandler (startState none none) (some "missing") =
      (startState none none, { status := 200, body := Json.obj [("value", Json.null)] }) :=
  storage_get_missing_key_null (startState none none) "missing" rfl

/-- C6 counterexample: at `limit = 0 < N = 2` the code returns the
whole 2-element history, not "exactly the last 0 messages" — so the
claim's "for every requested limit k, k < N returns exactly the last
k" fails at `k = 0`. -/
theorem getMessages_limit_zero_counterexample :
    getMessages "general" [sampleBotMsg, sampleBotMsg2] 0 = [sampleBotMsg, sampleBotMsg2] ∧
    (getMessages "general" [sampleBotMsg, sampleBotMsg2] 0).length = 2 ∧
    (0 : Nat) < 2 :=
  ⟨rfl, rfl, by decide⟩

/-- C6 amended: for `1 ≤ k < N`, `getMessages` returns exactly the
last `k` messages in original order (a length-`k` suffix); for
`k ≥ N` it returns all `N` unchanged; for `k = 0` (where the original
claim fails) it returns the whole history because `slice(-0)` is
`slice(0)`; and the declared default limit is 50. -/
theorem getMessages_last_k_amended (ch : String) (msgs : List StoredMessage) (k : Nat) :
    (1 ≤ k → k < msgs.length →
      getMessages ch msgs k = msgs.drop (msgs.length - k) ∧
      (getMessages ch msgs k).length = k ∧
      List.IsSuffix (getMessages ch msgs k) msgs) ∧
    (msgs.length ≤ k → getMessages ch msgs k = msgs) ∧
    (getMessages ch msgs 0 = msgs) ∧
    getMessagesDefault ch msgs = getMessages ch msgs 50 := by
  refine ⟨?_, ?_, rfl, rfl⟩
  · intro h1 h2
    have hk : ¬(k = 0) := by omega
    refine ⟨by simp [getMessages, jsSliceNeg, hk], ?_, ?_⟩
    · simp only [getMessages, jsSliceNeg, hk, if_neg, not_false_iff, List.length_drop]
      omega
    · simp only [getMessages, jsSliceNeg, hk, if_neg, not_false_iff]
      exact List.drop_suffix _ _
  · intro hle
    by_cases hk : k = 0
    · simp [getMessages, jsSliceNeg, hk]
    · have hz : msgs.length - k = 0 := by omega
      simp [getMessages, jsSliceNeg, hk, hz]

/-- C6 witness: `k = 1 < 2` gives exactly the last message; `k = 5 ≥ 2`
gives the whole history. -/
theorem getMessages_last_k_witness :
    getMessages "general" [sampleBotMsg, sampleBotMsg2] 1 = [sampleBotMsg2] ∧
    getMessages "general" [sampleBotMsg, sampleBotMsg2] 5 = [sampleBotMsg, sampleBotMsg2] := by
  constructor
  · have h := ((getMessages_last_k_amended "general" [sampleBotMsg, sampleBotMsg2] 1).1
      (by decide) (by simp)).1
    rw [h]
    rfl
  · exact (getMessages_last_k_amended "general" [sampleBotMsg, sampleBotMsg2] 5).2.1 (by simp)

/-- C4 counterexample: broadcasting with a dead viewer registered
leaves that viewer in the registry — the broadcast loop contains no
removal (the only `clients.delete` in the program is the connection's
`close` handler), refuting the claim that a write failure "causes that
viewer's automatic removal from the registry". -/
theorem broadcast_failure_no_removal_counterexample :
    broadcast [closedClient, openClient] sampleBotMsg =
      [closedClient, { openClient with received := [sampleBotMsg] }] ∧
    closedClient.closed = true ∧
    closedClient ∈ broadcast [closedClient, openClient] sampleBotMsg := by
  refine ⟨rfl, rfl, ?_⟩
  rw [show broadcast [closedClient, openClient] sampleBotMsg =
    [closedClient, { openClient with received := [sampleBotMsg] }] from rfl]
  exact List.mem_cons_self _ _

/-- C4 amended: a write failure on one viewer's channel does not
prevent delivery to the remaining viewers and never propagates an
error to the broadcast's caller (`res.write` on a destroyed stream
fails on the stream, not as a synchronous exception), but it does
*not* remove the viewer: the registry is unchanged by a broadcast, and
a viewer is removed only by its connection's `close` handler. -/
theorem broadcast_best_effort_no_removal (cs : List Client) (m : StoredMessage)
    (s : ServerState) (cid : Nat) :
    (broadcast cs m).map Client.cid = cs.map Client.cid ∧
    (∀ c, c ∈ cs → c.closed = false →
      writeToClient c m ∈ broadcast cs m ∧ (writeToClient c m).received = c.received ++ [m]) ∧
    (∀ c, c ∈ cs → c.closed = true → c ∈ broadcast cs m) ∧
    (onCloseClient s cid).clients = s.clients.filter (fun c => c.cid ≠ cid) := by
  refine ⟨?_, ?_, ?_, rfl⟩
  · rw [broadcast, List.map_map]
    apply List.map_congr_left
    intro c _
    by_cases hc : c.closed <;> simp [writeToClient, hc]
  · intro c hc hopen
    exact ⟨List.mem_map_of_mem _ hc, by simp [writeToClient, hopen]⟩
  · intro c hc hclosed
    have hid : writeToClient c m = c := by simp [writeToClient, hclosed]
    rw [broadcast]
    have hmem := List.mem_map_of_mem (fun x => writeToClient x m) hc
    simpa [hid] using hmem

/-- C4 witness: with one dead and one live viewer registered, the live
viewer receives the message and the dead one stays registered. -/
theorem broadcast_best_effort_witness :
    writeToClient openClient sampleBotMsg ∈ broadcast [closedClient, openClient] sampleBotMsg ∧
    closedClient ∈ broadcast [closedClient, openClient] sampleBotMsg :=
  ⟨((broadcast_best_effort_no_removal [closedClient, openClient] sampleBotMsg
      (startState none none) 0).2.1 openClient (by simp) rfl).1,
   (broadcast_best_effort_no_removal [closedClient, openClient] sampleBotMsg
      (startState none none) 0).2.2.1 closedClient (by simp) rfl⟩

/-- C8: `ctx.api.sendMessage` appends a message attributed to the
plugin's bot identity (`userId` and `user.id` both `'ext-bot'`, user
name `manifest.name || 'Extension'`) to the log, and in its effect
trace the `messages.push` strictly precedes every client write: any
`write` of a message in the trace is preceded by the `append` of that
same message. -/
theorem sendMessage_appends_then_broadcasts (s : ServerState) (manifestName : Option String)
    (now : Nat) (ch content : String) :
    ((sendMessage s manifestName now ch content).1).messages =
      s.messages ++ [mkBotMessage manifestName now ch content] ∧
    (mkBotMessage manifestName now ch content).userId = "ext-bot" ∧
    (mkBotMessage manifestName now ch content).user.id = "ext-bot" ∧
    (mkBotMessage manifestName now ch content).user.name = jsOrElse manifestName "Extension" ∧
    (sendMessage s manifestName now ch content).2 =
      Action.append (mkBotMessage manifestName now ch content) ::
        s.clients.map (fun c => Action.write c.cid (mkBotMessage manifestName now ch content)) ∧
    (∀ (i : Nat) (cid : Nat) (m' : StoredMessage),
      ((sendMessage s manifestName now ch content).2)[i]? = some (Action.write cid m') →
      ∃ j : Nat, j < i ∧
        ((sendMessage s manifestName now ch content).2)[j]? = some (Action.append m')) := by
  refine ⟨rfl, rfl, rfl, rfl, rfl, ?_⟩
  have htr : (sendMessage s manifestName now ch content).2 =
      Action.append (mkBotMessage manifestName now ch content) ::
        s.clients.map (fun c => Action.write c.cid (mkBotMessage manifestName now ch content)) :=
    rfl
  intro i cid m' hi
  rw [htr] at hi
  cases i with
  | zero =>
    rw [List.getElem?_cons_zero] at hi
    simp at hi
  | succ i =>
    rw [List.getElem?_cons_succ, List.getElem?_map] at hi
    cases hcl : s.clients[i]? with
    | none => rw [hcl] at hi; simp at hi
    | some c =>
      rw [hcl] at hi
      rw [Option.map_some'] at hi
      have hi' := Option.some.inj hi
      have hm : mkBotMessage manifestName now ch content = m' := by
        injection hi'
      refine ⟨0, Nat.succ_pos i, ?_⟩
      rw [htr, List.getElem?_cons_zero, hm]

/-- C8 witness: one registered viewer; the trace is the append
followed by the single write. -/
theorem sendMessage_append_witness :
    ((sendMessage { startState none none with clients := [viewerClient] }
        (some "My Ext") 5 "general" "hi").1).messages =
      [mkBotMessage (some "My Ext") 5 "general" "hi"] ∧
    (sendMessage { startState none none with clients := [viewerClient] }
        (some "My Ext") 5 "general" "hi").2 =
      [Action.append (mkBotMessage (some "My Ext") 5 "general" "hi"),
       Action.write 7 (mkBotMessage (some "My Ext") 5 "general" "hi")] := by
  obtain ⟨h1, -, -, -, h5, -⟩ := sendMessage_appends_then_broadcasts
    { startState none none with clients := [viewerClient] } (some "My Ext") 5 "general" "hi"
  exact ⟨h1, h5⟩

/-- C7: every storage mutation (set, delete, replace-all — whether
through `ctx.api.storage` or the router) ends in `persistStorage`,
which rewrites the whole backing file from the in-memory table before
returning; consequently, after any nonempty sequence of mutations,
re-running the construction-time load on the backing file reproduces
exactly the final in-memory table. -/
theorem storage_mutations_persist_and_roundtrip (file : Option (List (String × Json)))
    (handler : Option MsgHandler) (ops : List StorageOp) (hne : ops ≠ [])
    (s : ServerState) (op : StorageOp) :
    (applyStorageOp s op).storageFile = some (applyStorageOp s op).storage ∧
    (runStorageOps (startState file handler) ops).storageFile =
      some (runStorageOps (startState file handler) ops).storage ∧
    loadStorage (runStorageOps (startState file handler) ops).storageFile =
      (runStorageOps (startState file handler) ops).storage := by
  have hfile : (runStorageOps (startState file handler) ops).storageFile =
      some (runStorageOps (startState file handler) ops).storage := by
    rcases List.eq_nil_or_concat ops with rfl | ⟨l, op', rfl⟩
    · exact absurd rfl hne
    · rw [runStorageOps, List.concat_eq_append, List.foldl_append]
      simp only [List.foldl_cons, List.foldl_nil]
      exact applyStorageOp_persists _ _
  refine ⟨applyStorageOp_persists s op, hfile, ?_⟩
  rw [hfile]
  exact loadStorage_roundtrip _
    (nodup_runStorageOps _ ops (nodup_storageKeys_loadStorage file))

/-- C7 witness: a fresh store, a single `set`. -/
theorem storage_roundtrip_witness :
    (applyStorageOp (startState none none) (StorageOp.set "k" (Json.num 1))).storageFile =
      some (applyStorageOp (startState none none) (StorageOp.set "k" (Json.num 1))).storage ∧
    (runStorageOps (startState none none) [StorageOp.set "k" (Json.num 1)]).storageFile =
      some (runStorageOps (startState none none) [StorageOp.set "k" (Json.num 1)]).storage ∧
    loadStorage (runStorageOps (startState none none)
        [StorageOp.set "k" (Json.num 1)]).storageFile =
      (runStorageOps (startState none none) [StorageOp.set "k" (Json.num 1)]).storage :=
  storage_mutations_persist_and_roundtrip none none [StorageOp.set "k" (Json.num 1)]
    (List.cons_ne_nil _ _) (startState none none) (StorageOp.set "k" (Json.num 1))

end FluxSandbox
